import Mathlib

/-!
Verification of the deterministic core of the AI project-manager app
(`src/agent.py`, `src/app.py`): JSON document model, dictionary helpers,
salary/budget arithmetic, eligibility filtering, the LLM gateway result
pipeline, persistence, and the task handlers.

Python dictionaries are modelled as association lists of string keys paired
with JSON values, with last-binding-wins lookup (matching `dict` semantics
when a JSON object carries duplicate keys) and in-place update on assignment.
The LLM HTTP exchange is modelled by an outcome type covering the failure
modes handled in `agent.py` (network error, HTTP status error, undecodable
response body) plus a decoded response body; `json.loads` on the extracted
candidate text is modelled by an executable recursive-descent JSON reader.
-/

/-- JSON values, as produced by `json.loads` / consumed by `json.dump`.
Numbers are modelled as rationals. -/
inductive Json where
  | null : Json
  | bool (b : Bool) : Json
  | num (q : ℚ) : Json
  | str (s : String) : Json
  | arr (xs : List Json) : Json
  | obj (kvs : List (String × Json)) : Json

/-- Python dict lookup on an association list: the *last* binding of a key
wins, matching how `json.loads` builds a `dict` from duplicate keys. -/
def lookupLast : List (String × Json) → String → Option Json
  | [], _ => none
  | (a, b) :: rest, k =>
    match lookupLast rest k with
    | some v => some v
    | none => if a = k then some b else none

/-- `d.get(k)` on a JSON value: key lookup on objects, `none` otherwise. -/
def jget : Json → String → Option Json
  | .obj kvs, k => lookupLast kvs k
  | _, _ => none

/-- `k in d`: Python dict key-membership test. -/
def containsKeyB (kvs : List (String × Json)) (k : String) : Bool :=
  kvs.any (fun p => p.1 == k)

/-- `d[k] = v`: overwrite every binding of `k` in place, or append a new
binding at the end (Python dicts keep insertion order). -/
def setPairs (kvs : List (String × Json)) (k : String) (v : Json) :
    List (String × Json) :=
  if containsKeyB kvs k then
    kvs.map (fun p => if p.1 == k then (p.1, v) else p)
  else kvs ++ [(k, v)]

/-- `d[k] = v` on a JSON value; identity on non-objects (the Python code
only ever assigns into dicts). -/
def jset : Json → String → Json → Json
  | .obj kvs, k, v => .obj (setPairs kvs k v)
  | j, _, _ => j

theorem lookupLast_append_single (kvs : List (String × Json)) (k : String)
    (v : Json) : lookupLast (kvs ++ [(k, v)]) k = some v := by
  induction kvs with
  | nil => simp [lookupLast]
  | cons p rest ih =>
    obtain ⟨a, b⟩ := p
    simp [lookupLast, ih]

theorem lookupLast_eq_none_of_not_containsKey (kvs : List (String × Json))
    (k : String) (h : containsKeyB kvs k = false) : lookupLast kvs k = none := by
  induction kvs with
  | nil => rfl
  | cons p rest ih =>
    obtain ⟨a, b⟩ := p
    simp only [containsKeyB, List.any_cons, Bool.or_eq_false_iff] at h
    obtain ⟨ha, hrest⟩ := h
    have hne : ¬ a = k := by simpa using ha
    simp [lookupLast, ih hrest, hne]

theorem containsKey_cons (a : String) (b : Json) (rest : List (String × Json))
    (k : String) :
    containsKeyB ((a, b) :: rest) k = ((a == k) || containsKeyB rest k) := rfl

theorem containsKey_map_setEntry (kvs : List (String × Json)) (k : String)
    (v : Json) :
    containsKeyB (kvs.map (fun p => if p.1 == k then (p.1, v) else p)) k
      = containsKeyB kvs k := by
  induction kvs with
  | nil => rfl
  | cons p rest ih =>
    obtain ⟨a, b⟩ := p
    have h1 : ((if (a == k) = true then (a, v) else (a, b)).1 == k)
        = (a == k) := by
      split <;> rfl
    simp only [containsKeyB, List.map_cons, List.any_cons] at ih ⊢
    rw [h1, ih]

theorem lookupLast_map_setEntry (kvs : List (String × Json)) (k : String)
    (v : Json) (h : containsKeyB kvs k = true) :
    lookupLast (kvs.map (fun p => if p.1 == k then (p.1, v) else p)) k
      = some v := by
  induction kvs with
  | nil => simp [containsKeyB] at h
  | cons p rest ih =>
    obtain ⟨a, b⟩ := p
    by_cases hrest : containsKeyB rest k = true
    · have := ih hrest
      simp only [List.map_cons, lookupLast, this]
    · have hrestf : containsKeyB rest k = false := by
        simpa using hrest
      have hnone : lookupLast
          (rest.map (fun p => if p.1 == k then (p.1, v) else p)) k = none :=
        lookupLast_eq_none_of_not_containsKey _ _
          (by rw [containsKey_map_setEntry]; exact hrestf)
      rw [containsKey_cons, hrestf, Bool.or_false] at h
      have hak' : a = k := by simpa using h
      subst hak'
      rw [List.map_cons]
      have hif : (if ((a, b).1 == a) = true then ((a, b).1, v) else (a, b))
          = (a, v) := by simp
      rw [hif]
      simp only [lookupLast, hnone]
      simp

/-- Reading a key back after a dict assignment yields the assigned value. -/
theorem lookupLast_setPairs (kvs : List (String × Json)) (k : String)
    (v : Json) : lookupLast (setPairs kvs k v) k = some v := by
  unfold setPairs
  by_cases h : containsKeyB kvs k = true
  · rw [if_pos h]
    exact lookupLast_map_setEntry kvs k v h
  · rw [if_neg h]
    exact lookupLast_append_single kvs k v

theorem jget_jset_obj (kvs : List (String × Json)) (k : String) (v : Json) :
    jget (jset (.obj kvs) k v) k = some v := by
  simp only [jset, jget]
  exact lookupLast_setPairs kvs k v

-- --- Salary Grade Mapping (agent.py:17 / app.py:104) ---

/-- `SALARY_GRADES = { "A": 3500, "B": 3000, "C": 2500, "D": 2200, "E": 2000 }` -/
def SALARY_GRADES : List (String × Nat) :=
  [("A", 3500), ("B", 3000), ("C", 2500), ("D", 2200), ("E", 2000)]

/-- `SALARY_GRADES.get(g, 0)`: table lookup with default 0. -/
def salaryOf (g : String) : Nat := (SALARY_GRADES.lookup g).getD 0

/-- `SALARY_GRADES.get(g, 0)` where `g` may be `None`
(as in `emp_map.get(eid, {}).get("salary_grade")`, app.py:200). -/
def salaryOfOpt : Option String → Nat
  | some g => salaryOf g
  | none => 0

-- --- Employee records (roster, read-only; schema of spec section 3) ---

structure Employee where
  id : String
  name : String
  skills : String
  experience : ℚ
  salary_grade : String
deriving DecidableEq

/-- Spec section 8: `cost(e) = SALARY_GRADES.get(e.salary_grade, 0)`. -/
def cost (e : Employee) : Nat := salaryOf e.salary_grade

/-- `{e["id"]: e for e in employees}` then `.get(eid)`: dict-comprehension
lookup, later entries overwriting earlier ones. -/
def getEmp (es : List Employee) (eid : String) : Option Employee :=
  es.reverse.find? (fun e => e.id == eid)

/-- `sum(SALARY_GRADES.get(emp_map.get(eid, {}).get("salary_grade"), 0)
for eid in team_ids)` (app.py:200). -/
def team_cost (es : List Employee) (team : List String) : Nat :=
  (team.map (fun eid => salaryOfOpt ((getEmp es eid).map Employee.salary_grade))).sum

-- --- Budget classification (app.py:201-210) ---

/-- The draft-review budget classification: `if percentage > 100` then
over budget, `elif 90 <= percentage <= 100` then nearing budget, else
within budget. -/
def classify (percentage : ℚ) : String :=
  if percentage > 100 then "over budget"
  else if 90 ≤ percentage ∧ percentage ≤ 100 then "nearing budget"
  else "within budget"

/-- `percentage = (team_cost / target_budget) * 100` (app.py:202). -/
def budgetPercentage (teamCost targetBudget : ℚ) : ℚ :=
  teamCost / targetBudget * 100

/-- Python `int(q)`: truncation toward zero. -/
def pyInt (q : ℚ) : Int := if 0 ≤ q then ⌊q⌋ else ⌈q⌉

/-- `st.progress(int(min(percentage, 100)))` (app.py:213): the value handed
to the progress bar. -/
def progressValue (teamCost targetBudget : ℚ) : Int :=
  pyInt (min (budgetPercentage teamCost targetBudget) 100)

-- --- JSON reader: the model of `json.loads` on the candidate text ---

/-- Whitespace skipping in the JSON reader. -/
def skipWs : List Char → List Char
  | c :: cs =>
    if c = ' ' ∨ c = Char.ofNat 10 ∨ c = Char.ofNat 9 ∨ c = Char.ofNat 13 then
      skipWs cs
    else c :: cs
  | [] => []

/-- Consume an expected literal run of characters. -/
def dropLit : List Char → List Char → Option (List Char)
  | [], cs => some cs
  | a :: as, c :: cs => if a = c then dropLit as cs else none
  | _ :: _, [] => none

/-- Read the remainder of a JSON string literal (opening quote already
consumed), handling the single-character escapes. -/
def readStr : Nat → List Char → Option (List Char × List Char)
  | 0, _ => none
  | _ + 1, [] => none
  | fuel + 1, c :: cs =>
    if c = Char.ofNat 34 then some ([], cs)
    else if c = Char.ofNat 92 then
      match cs with
      | [] => none
      | d :: cs2 =>
        let e : Option Char :=
          if d = Char.ofNat 34 then some (Char.ofNat 34)
          else if d = Char.ofNat 92 then some (Char.ofNat 92)
          else if d = '/' then some '/'
          else if d = 'n' then some (Char.ofNat 10)
          else if d = 't' then some (Char.ofNat 9)
          else if d = 'r' then some (Char.ofNat 13)
          else if d = 'b' then some (Char.ofNat 8)
          else if d = 'f' then some (Char.ofNat 12)
          else none
        match e with
        | some ch => (readStr fuel cs2).map (fun r => (ch :: r.1, r.2))
        | none => none
    else (readStr fuel cs).map (fun r => (c :: r.1, r.2))

/-- Split a leading run of decimal digits. -/
def spanDigits : List Char → List Char × List Char
  | c :: cs =>
    if c.isDigit then
      let r := spanDigits cs
      (c :: r.1, r.2)
    else ([], c :: cs)
  | [] => ([], [])

/-- Numeric value of a digit run. -/
def digitsVal (ds : List Char) : Nat :=
  ds.foldl (fun a c => a * 10 + (c.toNat - 48)) 0

/-- Read a JSON number (integer or decimal). -/
def readNum (cs : List Char) : Option (Json × List Char) :=
  let sgn : Bool × List Char :=
    match cs with
    | c :: r => if c = '-' then (true, r) else (false, cs)
    | [] => (false, cs)
  match spanDigits sgn.2 with
  | (d :: ds, r) =>
    let ip : ℚ := (digitsVal (d :: ds) : ℚ)
    match r with
    | c :: r2 =>
      if c = '.' then
        match spanDigits r2 with
        | (f :: fs, r3) =>
          let q : ℚ := ip + (digitsVal (f :: fs) : ℚ) / ((10 : ℚ) ^ (f :: fs).length)
          some (.num (if sgn.1 then -q else q), r3)
        | ([], _) => none
      else some (.num (if sgn.1 then -ip else ip), r)
    | [] => some (.num (if sgn.1 then -ip else ip), [])
  | ([], _) => none

mutual

/-- Read one JSON value. -/
def readVal : Nat → List Char → Option (Json × List Char)
  | 0, _ => none
  | fuel + 1, cs =>
    match skipWs cs with
    | [] => none
    | c :: rest =>
      if c = 'n' then (dropLit ['u', 'l', 'l'] rest).map (fun r => (Json.null, r))
      else if c = 't' then (dropLit ['r', 'u', 'e'] rest).map (fun r => (Json.bool true, r))
      else if c = 'f' then (dropLit ['a', 'l', 's', 'e'] rest).map (fun r => (Json.bool false, r))
      else if c = Char.ofNat 34 then
        (readStr (rest.length + 1) rest).map (fun r => (Json.str (String.mk r.1), r.2))
      else if c = '[' then
        match skipWs rest with
        | c2 :: r2 =>
          if c2 = ']' then some (Json.arr [], r2)
          else
            match readItems fuel rest with
            | some (xs, r3) => some (Json.arr xs, r3)
            | none => none
        | [] => none
      else if c = Char.ofNat 123 then
        match skipWs rest with
        | c2 :: r2 =>
          if c2 = Char.ofNat 125 then some (Json.obj [], r2)
          else
            match readMembers fuel rest with
            | some (ms, r3) => some (Json.obj ms, r3)
            | none => none
        | [] => none
      else readNum (c :: rest)

/-- Read the comma-separated items of a JSON array up to `]`. -/
def readItems : Nat → List Char → Option (List Json × List Char)
  | 0, _ => none
  | fuel + 1, cs =>
    match readVal fuel cs with
    | some (x, r) =>
      match skipWs r with
      | c :: r2 =>
        if c = ',' then
          match readItems fuel r2 with
          | some (xs, r3) => some (x :: xs, r3)
          | none => none
        else if c = ']' then some ([x], r2)
        else none
      | [] => none
    | none => none

/-- Read the comma-separated members of a JSON object up to the closing
brace. -/
def readMembers : Nat → List Char → Option (List (String × Json) × List Char)
  | 0, _ => none
  | fuel + 1, cs =>
    match skipWs cs with
    | c :: r =>
      if c = Char.ofNat 34 then
        match readStr (r.length + 1) r with
        | some (kcs, r2) =>
          match skipWs r2 with
          | c2 :: r3 =>
            if c2 = ':' then
              match readVal fuel r3 with
              | some (v, r4) =>
                match skipWs r4 with
                | c3 :: r5 =>
                  if c3 = ',' then
                    match readMembers fuel r5 with
                    | some (ms, r6) => some ((String.mk kcs, v) :: ms, r6)
                    | none => none
                  else if c3 = Char.ofNat 125 then some ([(String.mk kcs, v)], r5)
                  else none
                | [] => none
              | none => none
            else none
          | [] => none
        | none => none
      else none
    | [] => none

end

/-- `json.loads(raw_text)`: read one value surrounded by whitespace; any
leftover input is a decode error. -/
def Json.parse (s : String) : Option Json :=
  match readVal (2 * s.length + 4) s.data with
  | some (j, r) => if skipWs r = [] then some j else none
  | none => none

-- --- The LLM gateway (agent.py) ---

/-- The outcome of `requests.post(...)` as the except-clauses of `agent.py`
observe it: a network failure (RequestException, including timeout), a
non-success status surfaced by `raise_for_status`, a response body that is
not decodable JSON, or a decoded JSON body. -/
inductive HttpOutcome where
  | netError (msg : String) : HttpOutcome
  | httpError (status : Nat) : HttpOutcome
  | badBody : HttpOutcome
  | body (j : Json) : HttpOutcome

/-- `data["candidates"][0]["content"]["parts"][0]["text"]` (agent.py:83);
`none` models the KeyError/IndexError paths. -/
def extractText (j : Json) : Option String :=
  match jget j "candidates" with
  | some (.arr (c0 :: _)) =>
    match jget c0 "content" with
    | some content =>
      match jget content "parts" with
      | some (.arr (p0 :: _)) =>
        match jget p0 "text" with
        | some (.str s) => some s
        | _ => none
      | _ => none
    | _ => none
  | _ => none

/-- The shared POST / `raise_for_status` / `resp.json()` / extract /
`json.loads` pipeline of the three gateway functions; every failure mode is
an error result for the caller. -/
def llmPipeline (out : HttpOutcome) : Except String Json :=
  match out with
  | .netError m => .error m
  | .httpError s => .error ("HTTP error " ++ toString s)
  | .badBody => .error "response body is not valid JSON"
  | .body j =>
    match extractText j with
    | none => .error "missing candidates text"
    | some raw =>
      match Json.parse raw with
      | some v => .ok v
      | none => .error "could not parse model text as JSON"

/-- `generate_project` (agent.py:33-86): API-key check, then the pipeline;
the parsed JSON object is returned as-is. -/
def generate_project (apiKey : Bool) (out : HttpOutcome) : Except String Json :=
  if apiKey then llmPipeline out else .error "API_KEY is not configured."

/-- The shape check of `modify_tasks_with_llm` (agent.py:134-137): accept a
list that is empty or whose first element is a dict containing an "id" key;
everything else raises. -/
def modifyTasksValidate : Json → Except String (List Json)
  | .arr [] => .ok []
  | .arr (x :: rest) =>
    match x with
    | .obj kvs =>
      if containsKeyB kvs "id" then .ok (.obj kvs :: rest)
      else .error "AI did not return a valid list of task objects."
    | _ => .error "AI did not return a valid list of task objects."
  | _ => .error "AI did not return a valid list of task objects."

/-- `modify_tasks_with_llm` (agent.py:89-139). -/
def modify_tasks_with_llm (apiKey : Bool) (out : HttpOutcome) :
    Except String (List Json) :=
  if apiKey then
    match llmPipeline out with
    | .ok v => modifyTasksValidate v
    | .error e => .error e
  else .error "API_KEY is not configured."

/-- The shape check of `generate_and_assign_tasks` (agent.py:194-197):
accept a list all of whose elements are dicts containing both a
"description" and an "assignee_id" key. -/
def genAssignValidate : Json → Except String (List Json)
  | .arr xs =>
    if xs.all (fun x =>
        match x with
        | .obj kvs => containsKeyB kvs "description" && containsKeyB kvs "assignee_id"
        | _ => false) then
      .ok xs
    else .error "AI did not return the expected list of task objects."
  | _ => .error "AI did not return the expected list of task objects."

/-- `generate_and_assign_tasks` (agent.py:142-199). -/
def generate_and_assign_tasks (apiKey : Bool) (out : HttpOutcome) :
    Except String (List Json) :=
  if apiKey then
    match llmPipeline out with
    | .ok v => genAssignValidate v
    | .error e => .error e
  else .error "API_KEY is not configured."

-- --- Project store persistence (app.py:77-86) ---

/-- The persisted project file: absent, present but undecodable (the
`json.JSONDecodeError` case on read), or holding a JSON document. -/
inductive FileState where
  | missing : FileState
  | corrupt : FileState
  | content (j : Json) : FileState

/-- `save_project_data` (app.py:77-79): wholesale overwrite of the file
with the serialized document, whatever was there before. -/
def save_project_data (data : Json) (_ : FileState) : FileState :=
  .content data

/-- `load_project_data` (app.py:81-86): `[]` if the file is missing, `[]`
if its contents do not decode (the swallowed `json.JSONDecodeError`),
otherwise the decoded document. -/
def load_project_data : FileState → Json
  | .missing => .arr []
  | .corrupt => .arr []
  | .content j => j

-- --- Schema-level records (spec section 3) ---

namespace Schema

structure Task where
  id : String
  description : String
  status : String
  assignee_id : Option String
  due_date : Option String
deriving DecidableEq

structure Project where
  id : String
  title : String
  description : String
  team : List String
  status : String
  user_budget : Int
  proposed_budget : Int
  tasks : List Task
deriving DecidableEq

/-- Nullable strings serialize as `null` or a string. -/
def encodeOptStr : Option String → Json
  | none => .null
  | some s => .str s

def Task.toJson (t : Task) : Json :=
  .obj [("id", .str t.id), ("description", .str t.description),
    ("status", .str t.status), ("assignee_id", encodeOptStr t.assignee_id),
    ("due_date", encodeOptStr t.due_date)]

def decodeStr : Option Json → Option String
  | some (.str s) => some s
  | _ => none

def decodeOptStr : Option Json → Option (Option String)
  | some .null => some none
  | some (.str s) => some (some s)
  | _ => none

def decodeInt : Option Json → Option Int
  | some (.num q) => if q.den = 1 then some q.num else none
  | _ => none

def Task.fromJson? (j : Json) : Option Task :=
  match decodeStr (jget j "id"), decodeStr (jget j "description"),
      decodeStr (jget j "status"), decodeOptStr (jget j "assignee_id"),
      decodeOptStr (jget j "due_date") with
  | some i, some d, some s, some a, some dd => some ⟨i, d, s, a, dd⟩
  | _, _, _, _, _ => none

def Project.toJson (p : Project) : Json :=
  .obj [("id", .str p.id), ("title", .str p.title),
    ("description", .str p.description), ("team", .arr (p.team.map .str)),
    ("status", .str p.status), ("user_budget", .num (p.user_budget : ℚ)),
    ("proposed_budget", .num (p.proposed_budget : ℚ)),
    ("tasks", .arr (p.tasks.map Task.toJson))]

def decodeStrs : List Json → Option (List String)
  | [] => some []
  | .str s :: xs => (decodeStrs xs).map (fun l => s :: l)
  | _ => none

def decodeTasks : List Json → Option (List Task)
  | [] => some []
  | x :: xs =>
    match Task.fromJson? x, decodeTasks xs with
    | some t, some l => some (t :: l)
    | _, _ => none

def decodeStrList : Option Json → Option (List String)
  | some (.arr xs) => decodeStrs xs
  | _ => none

def decodeTaskList : Option Json → Option (List Task)
  | some (.arr xs) => decodeTasks xs
  | _ => none

def Project.fromJson? (j : Json) : Option Project :=
  match decodeStr (jget j "id"), decodeStr (jget j "title"),
      decodeStr (jget j "description"), decodeStrList (jget j "team"),
      decodeStr (jget j "status"), decodeInt (jget j "user_budget"),
      decodeInt (jget j "proposed_budget"), decodeTaskList (jget j "tasks") with
  | some i, some ti, some d, some tm, some s, some ub, some pb, some ts =>
    some ⟨i, ti, d, tm, s, ub, pb, ts⟩
  | _, _, _, _, _, _, _, _ => none

/-- The document written by `save_project_data(st.session_state.projects)`
for a schema-level project list. -/
def encodeProjects (ps : List Project) : Json := .arr (ps.map Project.toJson)

def decodeProjList : List Json → Option (List Project)
  | [] => some []
  | x :: xs =>
    match Project.fromJson? x, decodeProjList xs with
    | some p, some l => some (p :: l)
    | _, _ => none

def decodeProjects : Json → Option (List Project)
  | .arr xs => decodeProjList xs
  | _ => none

end Schema

-- --- Eligibility filter (app.py:107-114, 179-180) ---

/-- `item.get('id') if isinstance(item, dict) else item` (app.py:111),
restricted to results that can match a roster id (a string): a dict whose
`id` is a non-string, or a non-string non-dict entry, matches no roster
key. -/
def itemId : Json → Option String
  | .obj kvs =>
    match lookupLast kvs "id" with
    | some (.str s) => some s
    | _ => none
  | .str s => some s
  | _ => none

/-- `proj.get("team", [])` (app.py:110); the schema makes this a list. -/
def teamItems (p : Json) : List Json :=
  match jget p "team" with
  | some (.arr xs) => xs
  | _ => []

/-- `get_employee_project_count` (app.py:107-114) read at a roster id: the
number of team entries across all persisted projects denoting that id. -/
def membershipCount (projects : List Json) (empId : String) : Nat :=
  (projects.map
    (fun p => ((teamItems p).filter (fun it => itemId it == some empId)).length)).sum

/-- `eligible_employees = [e for e in st.session_state.employees if
emp_counts.get(e["id"], 0) < 2]` (app.py:180). -/
def eligible_employees (es : List Employee) (projects : List Json) :
    List Employee :=
  es.filter (fun e => membershipCount projects e.id < 2)

-- --- Task status buttons (app.py:289-300) ---

def TASK_STATUSES : List String := ["To Do", "In Progress", "Completed"]

/-- The target statuses offered by the compact task card, keyed by the
current status (app.py:289-300). -/
def statusTransitions (s : String) : List String :=
  if s = "To Do" then ["In Progress"]
  else if s = "In Progress" then ["To Do", "Completed"]
  else if s = "Completed" then ["To Do"]
  else []

/-- A status button handler: `task['status'] = target`, performed with no
precondition check (app.py:291, 295, 297, 300). -/
def applyStatusButton (task : Json) (target : String) : Json :=
  jset task "status" (.str target)

-- --- AI Task Suggester append loop (app.py:267-271) ---

/-- One appended task (app.py:269): fresh id, the suggested description,
status "To Do", the suggested assignee, no due date. The suggester only
runs these on gateway output validated to contain both keys. -/
def mkSuggestedTask (newId : String) (td : Json) : Json :=
  .obj [("id", .str newId), ("description", (jget td "description").getD .null),
    ("status", .str "To Do"), ("assignee_id", (jget td "assignee_id").getD .null),
    ("due_date", .null)]

/-- `proj.get('tasks', [])` as a list (app.py:258). -/
def projTasks (p : Json) : List Json :=
  match jget p "tasks" with
  | some (.arr ts) => ts
  | _ => []

/-- The tasks created by the append loop starting at loop counter `k`,
with ids drawn from the uuid4 stream `ids`. -/
def suggestedTasksFrom (suggs : List Json) (ids : Nat → String) (k : Nat) :
    List Json :=
  match suggs with
  | [] => []
  | td :: rest => mkSuggestedTask (ids k) td :: suggestedTasksFrom rest ids (k + 1)

/-- The tasks created by the append loop, with ids drawn from the uuid4
stream `ids`. -/
def suggestedTasks (suggs : List Json) (ids : Nat → String) : List Json :=
  suggestedTasksFrom suggs ids 0

/-- The effect of the whole append loop on the selected project. -/
def appendSuggested (proj : Json) (suggs : List Json) (ids : Nat → String) :
    Json :=
  jset proj "tasks" (.arr (projTasks proj ++ suggestedTasks suggs ids))

-- --- The handlers around the gateway (app.py) ---

/-- The Generate Project Draft handler body (app.py:183-187): on success
the returned object is augmented by `new_project.update(...)` and stored as
the session draft; on failure only an error message is shown. The project
file is not written in either case (saving happens on Approve,
app.py:219). -/
def generateDraftHandler (draft0 : Option Json) (fs : FileState)
    (newId : String) (user_budget : Int) (r : Except String Json) :
    Option Json × FileState × Option String :=
  match r with
  | .error e => (draft0, fs, some ("Failed to generate project: " ++ e))
  | .ok j =>
    (some (jset (jset (jset (jset j "id" (.str newId)) "status" (.str "pending"))
      "tasks" (.arr [])) "user_budget" (.num (user_budget : ℚ))), fs, none)

/-- The Execute Command handler body (app.py:349-357): on success the
selected project's task list is replaced wholesale and the store saved;
on failure nothing is assigned and nothing is written. -/
def executeCommandHandler (projects : List Json) (fs : FileState) (idx : Nat)
    (r : Except String (List Json)) : List Json × FileState × Option String :=
  match r with
  | .error e => (projects, fs, some ("Failed to modify tasks: " ++ e))
  | .ok newTasks =>
    let ps := projects.set idx (jset (projects.getD idx .null) "tasks" (.arr newTasks))
    (ps, save_project_data (.arr ps) fs, none)

/-- The Suggest and Auto-Assign handler body (app.py:255-274): on success
with a nonempty suggestion list the new tasks are appended and the store
saved; on failure, and on an empty success, nothing is written. -/
def suggestTasksHandler (projects : List Json) (fs : FileState) (idx : Nat)
    (ids : Nat → String) (r : Except String (List Json)) :
    List Json × FileState × Option String :=
  match r with
  | .error e => (projects, fs, some ("Failed to get suggestions: " ++ e))
  | .ok suggs =>
    if suggs.isEmpty then (projects, fs, none)
    else
      let ps := projects.set idx (appendSuggested (projects.getD idx .null) suggs ids)
      (ps, save_project_data (.arr ps) fs, none)

/-- The output shape stated by the spec for the task-returning gateway
operations: an array of objects each containing the required key. Written
from the spec's words, for comparison with the checks the code performs. -/
def specArrayAllHaveKey : Json → String → Bool
  | .arr xs, k =>
    xs.all (fun x =>
      match x with
      | .obj kvs => containsKeyB kvs k
      | _ => false)
  | _, _ => false

-- --- Round-trip lemmas for the schema codec ---

namespace Schema

theorem decodeInt_intCast (i : Int) :
    decodeInt (some (.num (i : ℚ))) = some i := by
  simp [decodeInt, Rat.den_intCast, Rat.num_intCast]

theorem task_fromJson_toJson (t : Task) :
    Task.fromJson? (Task.toJson t) = some t := by
  obtain ⟨i, d, s, a, dd⟩ := t
  cases a <;> cases dd <;> rfl

theorem decodeStrs_map (l : List String) :
    decodeStrs (l.map .str) = some l := by
  induction l with
  | nil => rfl
  | cons s rest ih => simp [decodeStrs, ih]

theorem decodeTasks_map (l : List Task) :
    decodeTasks (l.map Task.toJson) = some l := by
  induction l with
  | nil => rfl
  | cons t rest ih => simp [decodeTasks, task_fromJson_toJson, ih]

theorem project_fromJson_toJson (p : Project) :
    Project.fromJson? (Project.toJson p) = some p := by
  obtain ⟨i, ti, d, tm, s, ub, pb, ts⟩ := p
  simp [Project.fromJson?, Project.toJson, jget, lookupLast,
    decodeStr, decodeStrList, decodeTaskList, decodeStrs_map, decodeTasks_map,
    decodeInt_intCast]

theorem decodeProjList_map (ps : List Project) :
    decodeProjList (ps.map Project.toJson) = some ps := by
  induction ps with
  | nil => rfl
  | cons p rest ih => simp [decodeProjList, project_fromJson_toJson, ih]

end Schema

-- --- Claim theorems ---

/-- C1: for every team cost and every positive budget, with
`percentage = team_cost / user_budget * 100`, the draft-review block
classifies "over budget" iff `percentage > 100`, "nearing budget" iff
`90 ≤ percentage ≤ 100`, and "within budget" iff `percentage < 90`;
both boundaries are closed. -/
theorem classify_budget_spec (tc b : ℚ) (hb : 0 < b) :
    (classify (budgetPercentage tc b) = "over budget" ↔
      100 < budgetPercentage tc b) ∧
    (classify (budgetPercentage tc b) = "nearing budget" ↔
      (90 ≤ budgetPercentage tc b ∧ budgetPercentage tc b ≤ 100)) ∧
    (classify (budgetPercentage tc b) = "within budget" ↔
      budgetPercentage tc b < 90) := by
  unfold classify
  split_ifs with h1 h2
  · refine ⟨⟨fun _ => h1, fun _ => rfl⟩, ?_, ?_⟩
    · exact iff_of_false (by decide) (fun hc => absurd h1 (not_lt.mpr hc.2))
    · exact iff_of_false (by decide) (not_lt.mpr (by linarith))
  · refine ⟨iff_of_false (by decide) h1, ⟨fun _ => h2, fun _ => rfl⟩,
      iff_of_false (by decide) (not_lt.mpr h2.1)⟩
  · have h3 : budgetPercentage tc b < 90 := by
      rcases not_and_or.mp h2 with h | h
      · exact lt_of_not_le h
      · exact absurd (le_of_not_lt h1) h
    exact ⟨iff_of_false (by decide) h1, iff_of_false (by decide) h2,
      ⟨fun _ => h3, fun _ => rfl⟩⟩

/-- Witness for C1 at the spec's own scenario: team cost 7000, budget 6000
(a percentage above 100, classified "over budget"). -/
theorem classify_budget_spec_witness :
    (0 : ℚ) < 6000 ∧
    classify (budgetPercentage 7000 6000) = "over budget" ∧
    ((classify (budgetPercentage 7000 6000) = "over budget" ↔
        100 < budgetPercentage 7000 6000) ∧
      (classify (budgetPercentage 7000 6000) = "nearing budget" ↔
        (90 ≤ budgetPercentage 7000 6000 ∧ budgetPercentage 7000 6000 ≤ 100)) ∧
      (classify (budgetPercentage 7000 6000) = "within budget" ↔
        budgetPercentage 7000 6000 < 90)) :=
  ⟨by norm_num,
   (classify_budget_spec 7000 6000 (by norm_num)).1.mpr
     (by norm_num [budgetPercentage]),
   classify_budget_spec 7000 6000 (by norm_num)⟩

/-- The salary table, written out as the spec enumerates it. -/
theorem salaryOf_eq_table (g : String) :
    salaryOf g =
      (if g = "A" then 3500 else if g = "B" then 3000 else if g = "C" then 2500
       else if g = "D" then 2200 else if g = "E" then 2000 else 0) := by
  by_cases h1 : g = "A"
  · simp [salaryOf, SALARY_GRADES, List.lookup, h1]
  · by_cases h2 : g = "B"
    · simp [salaryOf, SALARY_GRADES, List.lookup, h1, h2]
    · by_cases h3 : g = "C"
      · simp [salaryOf, SALARY_GRADES, List.lookup, h1, h2, h3]
      · by_cases h4 : g = "D"
        · simp [salaryOf, SALARY_GRADES, List.lookup, h1, h2, h3, h4]
        · by_cases h5 : g = "E"
          · simp [salaryOf, SALARY_GRADES, List.lookup, h1, h2, h3, h4, h5]
          · simp [salaryOf, SALARY_GRADES, List.lookup, h1, h2, h3, h4, h5,
              beq_eq_false_iff_ne.mpr h1, beq_eq_false_iff_ne.mpr h2,
              beq_eq_false_iff_ne.mpr h3, beq_eq_false_iff_ne.mpr h4,
              beq_eq_false_iff_ne.mpr h5]

/-- C2: every employee costs `SALARY_GRADES.get(e.salary_grade, 0)` with the
fixed table A=3500, B=3000, C=2500, D=2200, E=2000 and 0 for unknown grades,
and the draft-review team cost is the sum of the costs of the referenced
employees (ids resolving to no roster employee contributing 0). -/
theorem cost_and_team_cost_spec :
    (∀ e : Employee, cost e =
      (if e.salary_grade = "A" then 3500 else if e.salary_grade = "B" then 3000
       else if e.salary_grade = "C" then 2500 else if e.salary_grade = "D" then 2200
       else if e.salary_grade = "E" then 2000 else 0)) ∧
    (∀ (es : List Employee) (team : List String),
      team_cost es team =
        (team.map (fun eid =>
          match getEmp es eid with
          | some e => cost e
          | none => 0)).sum) := by
  constructor
  · intro e
    exact salaryOf_eq_table e.salary_grade
  · intro es team
    induction team with
    | nil => rfl
    | cons eid rest ih =>
      simp only [team_cost, List.map_cons, List.sum_cons] at ih ⊢
      rw [ih]
      congr 1
      cases h : getEmp es eid <;> simp [salaryOfOpt, cost, h]

/-- C3: an employee is in `eligible_employees` iff they are on the roster
and their membership count over all persisted projects' team fields is
strictly below 2; in particular a count of exactly 2 excludes and a count
of 1 includes. -/
theorem eligible_employees_spec (es : List Employee) (projects : List Json)
    (e : Employee) :
    (e ∈ eligible_employees es projects ↔
      e ∈ es ∧ membershipCount projects e.id < 2) ∧
    (e ∈ es → membershipCount projects e.id = 2 →
      e ∉ eligible_employees es projects) ∧
    (e ∈ es → membershipCount projects e.id = 1 →
      e ∈ eligible_employees es projects) := by
  refine ⟨?_, ?_, ?_⟩
  · simp [eligible_employees, List.mem_filter]
  · intro _ hc
    simp [eligible_employees, List.mem_filter, hc]
  · intro hmem hc
    simp [eligible_employees, List.mem_filter, hc, hmem]

/-- Witness for C3 at the spec's scenario: e1 (grade A) holds 2 memberships
and is excluded; e2 (grade B) holds 1 membership and is included. -/
theorem eligible_employees_spec_witness :
    (⟨"e1", "Alice", "python", 5, "A"⟩ : Employee) ∉
      eligible_employees
        [⟨"e1", "Alice", "python", 5, "A"⟩, ⟨"e2", "Bob", "java", 3, "B"⟩]
        [.obj [("team", .arr [.str "e1", .str "e2"])],
         .obj [("team", .arr [.str "e1"])]] ∧
    (⟨"e2", "Bob", "java", 3, "B"⟩ : Employee) ∈
      eligible_employees
        [⟨"e1", "Alice", "python", 5, "A"⟩, ⟨"e2", "Bob", "java", 3, "B"⟩]
        [.obj [("team", .arr [.str "e1", .str "e2"])],
         .obj [("team", .arr [.str "e1"])]] :=
  ⟨(eligible_employees_spec _ _ _).2.1 (List.mem_cons_self _ _) (by decide),
   (eligible_employees_spec _ _ _).2.2
     (List.mem_cons_of_mem _ (List.mem_cons_self _ _)) (by decide)⟩

theorem llmPipeline_ok_inv (out : HttpOutcome) (v : Json)
    (h : llmPipeline out = .ok v) :
    ∃ body raw, out = .body body ∧ extractText body = some raw ∧
      Json.parse raw = some v := by
  cases out with
  | netError m => simp [llmPipeline] at h
  | httpError s => simp [llmPipeline] at h
  | badBody => simp [llmPipeline] at h
  | body j =>
    cases hext : extractText j with
    | none => simp [llmPipeline, hext] at h
    | some raw =>
      cases hp : Json.parse raw with
      | none => simp [llmPipeline, hext, hp] at h
      | some w =>
        simp only [llmPipeline, hext, hp] at h
        cases h
        exact ⟨j, raw, rfl, hext, hp⟩

/-- C4: each gateway operation succeeds only when the HTTP exchange
delivered a body from which the candidate text was extracted and parsed
(and, for the task operations, validated) — every failure mode is an error
for the caller — and each of the three handlers leaves the persisted
project store untouched when the operation fails (the draft handler never
writes it at all); the store is written only from the success branch. -/
theorem llm_failure_leaves_store_untouched :
    (∀ (key : Bool) (out : HttpOutcome) (v : Json),
      generate_project key out = .ok v →
      ∃ body raw, out = .body body ∧ extractText body = some raw ∧
        Json.parse raw = some v) ∧
    (∀ (key : Bool) (out : HttpOutcome) (l : List Json),
      modify_tasks_with_llm key out = .ok l →
      ∃ body raw v, out = .body body ∧ extractText body = some raw ∧
        Json.parse raw = some v ∧ modifyTasksValidate v = .ok l) ∧
    (∀ (key : Bool) (out : HttpOutcome) (l : List Json),
      generate_and_assign_tasks key out = .ok l →
      ∃ body raw v, out = .body body ∧ extractText body = some raw ∧
        Json.parse raw = some v ∧ genAssignValidate v = .ok l) ∧
    (∀ (draft0 : Option Json) (fs : FileState) (nid : String) (ub : Int)
      (r : Except String Json),
      (generateDraftHandler draft0 fs nid ub r).2.1 = fs) ∧
    (∀ (ps : List Json) (fs : FileState) (idx : Nat) (e : String),
      (executeCommandHandler ps fs idx (.error e)).1 = ps ∧
      (executeCommandHandler ps fs idx (.error e)).2.1 = fs) ∧
    (∀ (ps : List Json) (fs : FileState) (idx : Nat) (ids : Nat → String)
      (e : String),
      (suggestTasksHandler ps fs idx ids (.error e)).1 = ps ∧
      (suggestTasksHandler ps fs idx ids (.error e)).2.1 = fs) := by
  refine ⟨?_, ?_, ?_, ?_, ?_, ?_⟩
  · intro key out v h
    cases key with
    | false => simp [generate_project] at h
    | true =>
      rw [generate_project, if_pos rfl] at h
      exact llmPipeline_ok_inv out v h
  · intro key out l h
    cases key with
    | false => simp [modify_tasks_with_llm] at h
    | true =>
      rw [modify_tasks_with_llm, if_pos rfl] at h
      cases hw : llmPipeline out with
      | error e => rw [hw] at h; cases h
      | ok w =>
        rw [hw] at h
        obtain ⟨body, raw, h1, h2, h3⟩ := llmPipeline_ok_inv out w hw
        exact ⟨body, raw, w, h1, h2, h3, h⟩
  · intro key out l h
    cases key with
    | false => simp [generate_and_assign_tasks] at h
    | true =>
      rw [generate_and_assign_tasks, if_pos rfl] at h
      cases hw : llmPipeline out with
      | error e => rw [hw] at h; cases h
      | ok w =>
        rw [hw] at h
        obtain ⟨body, raw, h1, h2, h3⟩ := llmPipeline_ok_inv out w hw
        exact ⟨body, raw, w, h1, h2, h3, h⟩
  · intro draft0 fs nid ub r
    cases r <;> rfl
  · intro ps fs idx e
    exact ⟨rfl, rfl⟩
  · intro ps fs idx ids e
    exact ⟨rfl, rfl⟩

/-- A well-formed gateway response body whose candidate text is `"[]"`. -/
def okGatewayBody : Json :=
  .obj [("candidates", .arr [.obj [("content",
    .obj [("parts", .arr [.obj [("text", .str "[]")]])])]])]

/-- A gateway response body whose candidate text is not JSON (the spec's
malformed-response scenario for `generate_project`). -/
def malformedGatewayBody : Json :=
  .obj [("candidates", .arr [.obj [("content",
    .obj [("parts", .arr [.obj [("text", .str "This is not JSON")]])])]])]

/-- Witness for C4: a successful exchange satisfies the success inversion
for each operation, and each handler leaves a concrete store state
untouched when the operation fails — in particular the draft handler run
on the malformed (non-JSON) `generate_project` response. -/
theorem llm_failure_leaves_store_untouched_witness :
    (∃ body raw, HttpOutcome.body okGatewayBody = .body body ∧
      extractText body = some raw ∧ Json.parse raw = some (.arr [])) ∧
    (∃ body raw v, HttpOutcome.body okGatewayBody = .body body ∧
      extractText body = some raw ∧ Json.parse raw = some v ∧
      modifyTasksValidate v = .ok []) ∧
    (∃ body raw v, HttpOutcome.body okGatewayBody = .body body ∧
      extractText body = some raw ∧ Json.parse raw = some v ∧
      genAssignValidate v = .ok []) ∧
    (generateDraftHandler none .missing "uid-1" 5000
      (generate_project true (.body malformedGatewayBody))).2.1 = .missing ∧
    (executeCommandHandler [] .missing 0 (.error "boom")).2.1 = .missing ∧
    (suggestTasksHandler [] .missing 0 (fun _ => "uid-2")
      (.error "boom")).2.1 = .missing :=
  ⟨llm_failure_leaves_store_untouched.1 true (.body okGatewayBody) (.arr []) rfl,
   llm_failure_leaves_store_untouched.2.1 true (.body okGatewayBody) [] rfl,
   llm_failure_leaves_store_untouched.2.2.1 true (.body okGatewayBody) [] rfl,
   llm_failure_leaves_store_untouched.2.2.2.1 none .missing "uid-1" 5000 _,
   (llm_failure_leaves_store_untouched.2.2.2.2.1 [] .missing 0 "boom").2,
   (llm_failure_leaves_store_untouched.2.2.2.2.2 [] .missing 0
     (fun _ => "uid-2") "boom").2⟩

/-- C5 counterexample: `modify_tasks_with_llm` accepts a parsed list whose
second element is an object without an `id` key — the code checks only the
first element, so "an array of objects each containing the required field"
is not what is enforced. -/
theorem modify_validate_first_element_only :
    modifyTasksValidate (.arr [.obj [("id", .str "t1")], .obj []])
      = .ok [.obj [("id", .str "t1")], .obj []] ∧
    specArrayAllHaveKey (.arr [.obj [("id", .str "t1")], .obj []]) "id"
      = false :=
  ⟨rfl, rfl⟩

/-- C5, amended: `modify_tasks_with_llm` returns the parsed array iff it is
a list that is empty or whose *first* element is an object containing an
`id` key (later elements are not checked); `generate_and_assign_tasks`
returns the parsed array iff it is a list of objects each containing both
`description` and `assignee_id`; in every other case the operation fails
with a validation error. -/
theorem llm_validation_amended :
    (∀ (j : Json) (l : List Json),
      modifyTasksValidate j = .ok l ↔
        (j = .arr l ∧ (l = [] ∨ ∃ kvs rest, l = .obj kvs :: rest ∧
          containsKeyB kvs "id" = true))) ∧
    (∀ (j : Json) (l : List Json),
      genAssignValidate j = .ok l ↔
        (j = .arr l ∧ ∀ x ∈ l, ∃ kvs, x = .obj kvs ∧
          containsKeyB kvs "description" = true ∧
          containsKeyB kvs "assignee_id" = true)) := by
  constructor
  · intro j l
    constructor
    · intro h
      cases j with
      | arr xs =>
        cases xs with
        | nil =>
          cases h
          exact ⟨rfl, Or.inl rfl⟩
        | cons x rest =>
          cases x with
          | obj kvs =>
            by_cases hk : containsKeyB kvs "id" = true
            · rw [modifyTasksValidate, if_pos hk] at h
              cases h
              exact ⟨rfl, Or.inr ⟨kvs, rest, rfl, hk⟩⟩
            · rw [modifyTasksValidate, if_neg hk] at h
              cases h
          | null => cases h
          | bool b => cases h
          | num q => cases h
          | str s => cases h
          | arr ys => cases h
      | null => cases h
      | bool b => cases h
      | num q => cases h
      | str s => cases h
      | obj kvs => cases h
    · rintro ⟨rfl, hshape⟩
      rcases hshape with rfl | ⟨kvs, rest, rfl, hk⟩
      · rfl
      · rw [modifyTasksValidate, if_pos hk]
  · intro j l
    constructor
    · intro h
      cases j with
      | arr xs =>
        by_cases hall : xs.all (fun x =>
            match x with
            | .obj kvs => containsKeyB kvs "description" &&
                containsKeyB kvs "assignee_id"
            | _ => false) = true
        · rw [genAssignValidate, if_pos hall] at h
          cases h
          refine ⟨rfl, ?_⟩
          intro x hx
          have := (List.all_eq_true.mp hall) x hx
          cases x with
          | obj kvs =>
            simp only [Bool.and_eq_true] at this
            exact ⟨kvs, rfl, this.1, this.2⟩
          | null => cases this
          | bool b => cases this
          | num q => cases this
          | str s => cases this
          | arr ys => cases this
        · rw [genAssignValidate, if_neg hall] at h
          cases h
      | null => cases h
      | bool b => cases h
      | num q => cases h
      | str s => cases h
      | obj kvs => cases h
    · rintro ⟨rfl, hshape⟩
      have hall : l.all (fun x =>
          match x with
          | .obj kvs => containsKeyB kvs "description" &&
              containsKeyB kvs "assignee_id"
          | _ => false) = true := by
        apply List.all_eq_true.mpr
        intro x hx
        obtain ⟨kvs, rfl, h1, h2⟩ := hshape x hx
        simp [h1, h2]
      rw [genAssignValidate, if_pos hall]

/-- C6: saving a schema-level project list with `save_project_data` and
loading it back with `load_project_data` decodes to a structurally equal
project list, field for field, whatever was in the file before. -/
theorem project_store_roundtrip (ps : List Schema.Project) (fs : FileState) :
    Schema.decodeProjects
      (load_project_data (save_project_data (Schema.encodeProjects ps) fs))
      = some ps := by
  show Schema.decodeProjects (Schema.encodeProjects ps) = some ps
  simp [Schema.encodeProjects, Schema.decodeProjects, Schema.decodeProjList_map]

/-- C7 counterexample: from status "To Do" the compact task card offers
only "In Progress" — the enumerated value "Completed" cannot be set from
there — and a task whose status lies outside the enumerated set passes the
shape check of the task-replacement path with no validation failure. -/
theorem status_transition_counterexample :
    "To Do" ∈ TASK_STATUSES ∧ "Completed" ∈ TASK_STATUSES ∧
    "Completed" ≠ "To Do" ∧
    "Completed" ∉ statusTransitions "To Do" ∧
    modifyTasksValidate
        (.arr [.obj [("id", .str "t1"), ("status", .str "Bogus")]])
      = .ok [.obj [("id", .str "t1"), ("status", .str "Bogus")]] ∧
    "Bogus" ∉ TASK_STATUSES :=
  ⟨by decide, by decide, by decide, by decide, rfl, by decide⟩

/-- C7, amended: the card offers the fixed transition graph To Do →
In Progress, In Progress → To Do or Completed, Completed → To Do; each
offered button assigns its target status unconditionally with no
illegal-transition check; and no code path validates status values against
the enumerated set — the task-replacement shape check accepts a task
carrying any status string. -/
theorem status_buttons_amended :
    statusTransitions "To Do" = ["In Progress"] ∧
    statusTransitions "In Progress" = ["To Do", "Completed"] ∧
    statusTransitions "Completed" = ["To Do"] ∧
    (∀ (kvs : List (String × Json)) (target : String),
      jget (applyStatusButton (.obj kvs) target) "status"
        = some (.str target)) ∧
    (∀ s : String,
      modifyTasksValidate (.arr [.obj [("id", .str "t1"), ("status", .str s)]])
        = .ok [.obj [("id", .str "t1"), ("status", .str s)]]) := by
  refine ⟨by decide, by decide, by decide, ?_, ?_⟩
  · intro kvs target
    exact jget_jset_obj kvs "status" (.str target)
  · intro s
    rfl

/-- C8: `load_project_data` returns the empty list both when the file is
missing and when its contents do not decode as JSON; the corruption is
swallowed (an empty project list is produced), never surfaced as an
error. -/
theorem load_project_data_swallows_corruption :
    load_project_data .missing = .arr [] ∧
    load_project_data .corrupt = .arr [] ∧
    Schema.decodeProjects (load_project_data .missing) = some [] ∧
    Schema.decodeProjects (load_project_data .corrupt) = some [] :=
  ⟨rfl, rfl, rfl, rfl⟩

/-- C9 counterexample: at team cost 2500 and budget 3000 the value handed
to the progress bar is 83, not the clamped percentage 250/3 — the code
passes the percentage through `int(...)`, which truncates. -/
theorem progressbar_clamp_counterexample :
    (0 : ℚ) < 3000 ∧ (0 : ℚ) ≤ 2500 ∧
    ((progressValue 2500 3000 : ℚ)
      ≠ max 0 (min (budgetPercentage 2500 3000) 100)) := by
  refine ⟨by norm_num, by norm_num, ?_⟩
  have h1 : budgetPercentage 2500 3000 = 250 / 3 := by
    norm_num [budgetPercentage]
  have h2 : min (250 / 3 : ℚ) 100 = 250 / 3 := min_eq_left (by norm_num)
  have h3 : max (0 : ℚ) (250 / 3) = 250 / 3 := max_eq_right (by norm_num)
  have h4 : progressValue 2500 3000 = 83 := by
    rw [progressValue, h1, h2, pyInt, if_pos (by norm_num)]
    norm_num
  rw [h4, h1, h2, h3]
  norm_num

/-- C9, amended: with a non-negative team cost and a positive budget, the
progress bar receives `int(min(percentage, 100))` — the integer truncation
(here the floor) of the percentage capped above at 100 — and this value
lies in [0, 100]. -/
theorem progressbar_truncated_clamp (tc b : ℚ) (hb : 0 < b) (htc : 0 ≤ tc) :
    progressValue tc b = ⌊min (budgetPercentage tc b) 100⌋ ∧
    0 ≤ progressValue tc b ∧ progressValue tc b ≤ 100 := by
  have hp : 0 ≤ budgetPercentage tc b := by
    unfold budgetPercentage
    exact mul_nonneg (div_nonneg htc hb.le) (by norm_num)
  have hmin : (0 : ℚ) ≤ min (budgetPercentage tc b) 100 :=
    le_min hp (by norm_num)
  have heq : progressValue tc b = ⌊min (budgetPercentage tc b) 100⌋ := by
    rw [progressValue, pyInt, if_pos hmin]
  refine ⟨heq, ?_, ?_⟩
  · rw [heq]
    exact Int.le_floor.mpr (by exact_mod_cast hmin)
  · rw [heq]
    calc ⌊min (budgetPercentage tc b) 100⌋ ≤ ⌊(100 : ℚ)⌋ :=
          Int.floor_le_floor (min_le_right _ _)
      _ = 100 := by norm_num

/-- Witness for the amended C9 at team cost 2500 and budget 3000. -/
theorem progressbar_truncated_clamp_witness :
    (0 : ℚ) < 3000 ∧ (0 : ℚ) ≤ 2500 ∧
    (progressValue 2500 3000 = ⌊min (budgetPercentage 2500 3000) 100⌋ ∧
     0 ≤ progressValue 2500 3000 ∧ progressValue 2500 3000 ≤ 100) :=
  ⟨by norm_num, by norm_num,
   progressbar_truncated_clamp 2500 3000 (by norm_num) (by norm_num)⟩

theorem suggestedTasksFrom_length (suggs : List Json) (ids : Nat → String)
    (k : Nat) : (suggestedTasksFrom suggs ids k).length = suggs.length := by
  induction suggs generalizing k with
  | nil => rfl
  | cons td rest ih => simp [suggestedTasksFrom, ih]

theorem suggestedTasksFrom_getD (suggs : List Json) (ids : Nat → String)
    (k i : Nat) (h : i < suggs.length) :
    (suggestedTasksFrom suggs ids k).getD i .null
      = mkSuggestedTask (ids (k + i)) (suggs.getD i .null) := by
  induction suggs generalizing k i with
  | nil => simp at h
  | cons td rest ih =>
    cases i with
    | zero => simp [suggestedTasksFrom]
    | succ n =>
      have hkn : k + (n + 1) = (k + 1) + n := by omega
      simp only [suggestedTasksFrom, List.getD_cons_succ, hkn]
      exact ih (k + 1) n (by simpa using h)

/-- C10: the Suggest and Auto-Assign append loop appends exactly one task
per suggestion at the end of the project's task list, leaving every
pre-existing task in place, and each appended task carries a fresh id
drawn from the uuid4 stream, the suggested description, status "To Do",
the suggested assignee, and a null due date. -/
theorem suggested_tasks_append_spec (kvs : List (String × Json))
    (suggs : List Json) (ids : Nat → String) :
    (jget (appendSuggested (.obj kvs) suggs ids) "tasks"
      = some (.arr (projTasks (.obj kvs) ++ suggestedTasks suggs ids))) ∧
    ((projTasks (.obj kvs) ++ suggestedTasks suggs ids).take
        (projTasks (.obj kvs)).length = projTasks (.obj kvs)) ∧
    (suggestedTasks suggs ids).length = suggs.length ∧
    (∀ i, i < suggs.length →
      (suggestedTasks suggs ids).getD i .null
        = mkSuggestedTask (ids i) (suggs.getD i .null)) ∧
    (∀ (nid : String) (td : Json),
      jget (mkSuggestedTask nid td) "id" = some (.str nid) ∧
      jget (mkSuggestedTask nid td) "description"
        = some ((jget td "description").getD .null) ∧
      jget (mkSuggestedTask nid td) "status" = some (.str "To Do") ∧
      jget (mkSuggestedTask nid td) "assignee_id"
        = some ((jget td "assignee_id").getD .null) ∧
      jget (mkSuggestedTask nid td) "due_date" = some .null) := by
  refine ⟨?_, ?_, suggestedTasksFrom_length suggs ids 0, ?_, ?_⟩
  · exact jget_jset_obj kvs "tasks" _
  · exact List.take_left _ _
  · intro i h
    have := suggestedTasksFrom_getD suggs ids 0 i h
    simpa using this
  · intro nid td
    exact ⟨rfl, rfl, rfl, rfl, rfl⟩

/-- Witness for C10: one suggestion appended to a project with one existing
task, evaluated concretely. -/
theorem suggested_tasks_append_spec_witness :
    (jget (appendSuggested (.obj [("tasks", .arr [.obj [("id", .str "t0")]])])
        [.obj [("description", .str "1. Do the thing"), ("assignee_id", .null)]]
        (fun _ => "uid-3")) "tasks"
      = some (.arr
          (projTasks (.obj [("tasks", .arr [.obj [("id", .str "t0")]])])
            ++ suggestedTasks
              [.obj [("description", .str "1. Do the thing"),
                ("assignee_id", .null)]]
              (fun _ => "uid-3")))) ∧
    (suggestedTasks
        [.obj [("description", .str "1. Do the thing"), ("assignee_id", .null)]]
        (fun _ => "uid-3")).getD 0 .null
      = mkSuggestedTask "uid-3"
          ([.obj [("description", .str "1. Do the thing"),
            ("assignee_id", .null)]].getD 0 .null) :=
  ⟨(suggested_tasks_append_spec [("tasks", .arr [.obj [("id", .str "t0")]])]
      [.obj [("description", .str "1. Do the thing"), ("assignee_id", .null)]]
      (fun _ => "uid-3")).1,
   (suggested_tasks_append_spec [("tasks", .arr [.obj [("id", .str "t0")]])]
      [.obj [("description", .str "1. Do the thing"), ("assignee_id", .null)]]
      (fun _ => "uid-3")).2.2.2.1 0 (by decide)⟩
